import Mathlib

set_option maxHeartbeats 1000000

/-!
Verification of the ingestion/normalization pipeline of `generate_heatmap.py`.

The Python source is shallowly embedded: JSON values produced by the `ijson`
streaming parser become the inductive `JVal`; Python numbers (ints, floats,
Decimals) are modelled as exact rationals; a raised exception becomes the
error case of `Except`; the item streams `ijson` yields for a file are
modelled abstractly as the list of complete items followed by a flag saying
whether the stream then raises `IncompleteJSONError` (e.g. a truncated file).
A naive ISO datetime's epoch depends on the host timezone; the model threads
that ambient state through as an explicit offset parameter `tzOff` (in
minutes), which no claim depends on.
-/

/-- JSON-like values as produced by the ijson streaming parser: null, booleans,
numbers (modelled as exact rationals, without float rounding), strings, arrays,
and objects (association lists in key order, keys unique as in a Python dict). -/
inductive JVal where
  | null : JVal
  | bool (b : Bool) : JVal
  | num (q : ℚ) : JVal
  | str (s : String) : JVal
  | arr (elems : List JVal) : JVal
  | obj (fields : List (String × JVal)) : JVal

/-- Python truthiness of a JSON value (`bool(v)`). -/
def pyTruthy : JVal → Bool
  | .null => false
  | .bool b => b
  | .num q => q != 0
  | .str s => s != ""
  | .arr xs => !xs.isEmpty
  | .obj kvs => !kvs.isEmpty

/-- Result of evaluating a Python expression: a value, or a raised exception. -/
abbrev PyM (α : Type) := Except Unit α

/-- Does the first character list start with the second? -/
def startsWithChars : List Char → List Char → Bool
  | _, [] => true
  | [], _ :: _ => false
  | h :: hs, n :: ns => h == n && startsWithChars hs ns

/-- Substring test on character lists (Python `needle in hay` for strings). -/
def containsChars : List Char → List Char → Bool
  | [], needle => needle.isEmpty
  | h :: rest, needle => startsWithChars (h :: rest) needle || containsChars rest needle

/-- Python membership test `k in v` for a string key `k`: key lookup on a dict,
element equality on a list, substring test on a string; raises `TypeError` on
the remaining value shapes. -/
def pyIn (k : String) : JVal → PyM Bool
  | .obj kvs => .ok ((List.lookup k kvs).isSome)
  | .arr xs => .ok (xs.any (fun x => match x with | .str s => s == k | _ => false))
  | .str s => .ok (containsChars s.toList k.toList)
  | _ => .error ()

/-- Python `v.get(k, dflt)`: defaulting key lookup, available only on dicts
(`AttributeError` otherwise). -/
def pyGet (v : JVal) (k : String) (dflt : JVal) : PyM JVal :=
  match v with
  | .obj kvs => .ok ((List.lookup k kvs).getD dflt)
  | _ => .error ()

/-- Python subscript `v[k]` with a string key: raises `KeyError` when the key
is missing and `TypeError` on non-dict values. -/
def pyIndex (v : JVal) (k : String) : PyM JVal :=
  match v with
  | .obj kvs =>
    match List.lookup k kvs with
    | some w => .ok w
    | none => .error ()
  | _ => .error ()

/-- Python `a or b` on already-evaluated operands. -/
def pyOr (a b : JVal) : JVal := if pyTruthy a then a else b

/-- Python iteration over a value (`for x in v`): list elements, string
characters (as one-character strings), dict keys; `TypeError` otherwise. -/
def pyIter : JVal → PyM (List JVal)
  | .arr xs => .ok xs
  | .str s => .ok (s.toList.map (fun c => .str (String.mk [c])))
  | .obj kvs => .ok (kvs.map (fun p => .str p.1))
  | _ => .error ()

/-- Negation on rationals via `mkRat`. The `Batteries` arithmetic on `Rat` is
marked irreducible, which blocks kernel evaluation in `decide`; the model
therefore computes with these `mkRat`-based operations, each proved equal to
the standard one below (`ratNeg_eq` and friends). -/
def ratNeg (q : ℚ) : ℚ := mkRat (-q.num) q.den

/-- Addition on rationals via `mkRat`. -/
def ratAdd (a b : ℚ) : ℚ := mkRat (a.num * b.den + b.num * a.den) (a.den * b.den)

/-- Subtraction on rationals via `mkRat`. -/
def ratSub (a b : ℚ) : ℚ := mkRat (a.num * b.den - b.num * a.den) (a.den * b.den)

/-- Multiplication on rationals via `mkRat`. -/
def ratMul (a b : ℚ) : ℚ := mkRat (a.num * b.num) (a.den * b.den)

/-- Division on rationals via `mkRat` (0 for a zero divisor, as in Mathlib). -/
def ratDiv (a b : ℚ) : ℚ :=
  if b.num < 0 then mkRat (-(a.num * (b.den : Int))) (a.den * b.num.natAbs)
  else mkRat (a.num * b.den) (a.den * b.num.natAbs)

/-- Embedding of an integer into the rationals via `mkRat`. -/
def intToRat (n : Int) : ℚ := mkRat n 1

/-- Embedding of a natural number into the rationals via `mkRat`. -/
def natToRat (n : Nat) : ℚ := mkRat n 1

theorem den_cast_nz (a : ℚ) : ((a.den : ℚ)) ≠ 0 := by exact_mod_cast a.den_nz

theorem num_cast_eq (a : ℚ) : ((a.num : ℚ)) = a * a.den :=
  (div_eq_iff (den_cast_nz a)).mp (Rat.num_div_den a)

theorem ratNeg_eq (q : ℚ) : ratNeg q = -q := by
  rw [ratNeg, Rat.mkRat_eq_div]
  push_cast
  rw [neg_div, Rat.num_div_den]

theorem ratAdd_eq (a b : ℚ) : ratAdd a b = a + b := by
  rw [ratAdd, Rat.mkRat_eq_div]
  push_cast
  rw [div_eq_iff (mul_ne_zero (den_cast_nz a) (den_cast_nz b)), num_cast_eq, num_cast_eq]
  ring

theorem ratSub_eq (a b : ℚ) : ratSub a b = a - b := by
  rw [ratSub, Rat.mkRat_eq_div]
  push_cast
  rw [div_eq_iff (mul_ne_zero (den_cast_nz a) (den_cast_nz b)), num_cast_eq, num_cast_eq]
  ring

theorem ratMul_eq (a b : ℚ) : ratMul a b = a * b := by
  rw [ratMul, Rat.mkRat_eq_div]
  push_cast
  rw [div_eq_iff (mul_ne_zero (den_cast_nz a) (den_cast_nz b)), num_cast_eq, num_cast_eq]
  ring

theorem ratDiv_eq (a b : ℚ) : ratDiv a b = a / b := by
  rcases eq_or_ne b 0 with rfl | hb
  · simp [ratDiv, Rat.mkRat_eq_div]
  · have hbn : ((b.num : ℚ)) ≠ 0 := by exact_mod_cast Rat.num_ne_zero.mpr hb
    rw [ratDiv]
    split
    · rename_i hneg
      have h1 : ((b.num.natAbs : Int)) = -b.num := Int.ofNat_natAbs_of_nonpos (le_of_lt hneg)
      have habs : ((b.num.natAbs : ℚ)) = -((b.num : ℚ)) := by
        rw [← Int.cast_natCast (R := ℚ), h1]
        push_cast
        ring
      rw [Rat.mkRat_eq_div]
      push_cast [habs]
      rw [div_eq_div_iff (by
            apply mul_ne_zero (den_cast_nz a)
            simpa using hbn) hb]
      rw [num_cast_eq, num_cast_eq]
      ring
    · rename_i hpos
      have h1 : ((b.num.natAbs : Int)) = b.num := Int.natAbs_of_nonneg (le_of_not_lt hpos)
      have habs : ((b.num.natAbs : ℚ)) = ((b.num : ℚ)) := by
        rw [← Int.cast_natCast (R := ℚ), h1]
      rw [Rat.mkRat_eq_div]
      push_cast [habs]
      rw [div_eq_div_iff (mul_ne_zero (den_cast_nz a) hbn) hb]
      rw [num_cast_eq, num_cast_eq]
      ring

theorem intToRat_eq (n : Int) : intToRat n = ((n : ℚ)) := by
  rw [intToRat, Rat.mkRat_eq_div]
  simp

theorem natToRat_eq (n : Nat) : natToRat n = ((n : ℚ)) := by
  rw [natToRat, Rat.mkRat_eq_div]
  simp

/-- Python `int()` truncation of a real number toward zero. -/
def pyIntTrunc (q : ℚ) : Int := if q < 0 then -((ratNeg q).floor) else q.floor

/-- Numeric value of a list of decimal digit characters. -/
def digitsToNat (ds : List Char) : Nat := ds.foldl (fun a c => 10 * a + (c.toNat - 48)) 0

/-- Python whitespace (the characters stripped by `bytes.strip` / `str.strip`). -/
def pyWS (c : Char) : Bool :=
  c == ' ' || c == '\t' || c == '\n' || c == '\r' || c == '\x0b' || c == '\x0c'

/-- Strip Python whitespace from both ends of a character list. -/
def stripChars (cs : List Char) : List Char :=
  ((cs.dropWhile pyWS).reverse.dropWhile pyWS).reverse

/-- Python `int(s)` on a string: optional sign and decimal digits after
stripping surrounding whitespace (underscore digit separators are not
modelled; no repository data contains them). -/
def strToInt (s : String) : Option Int :=
  match stripChars s.toList with
  | '-' :: ds => if !ds.isEmpty && ds.all Char.isDigit then some (-(digitsToNat ds : Int)) else none
  | '+' :: ds => if !ds.isEmpty && ds.all Char.isDigit then some ((digitsToNat ds : Int)) else none
  | ds => if !ds.isEmpty && ds.all Char.isDigit then some ((digitsToNat ds : Int)) else none

/-- Python `int(v)` conversion on a JSON value: numbers truncate toward zero,
booleans convert to 0 or 1, strings parse as signed decimal integers; every
other shape raises, modelled as `none` since the single call site catches. -/
def pyInt : JVal → Option Int
  | .num q => some (pyIntTrunc q)
  | .bool b => some (if b then 1 else 0)
  | .str s => strToInt s
  | _ => none

/-- Python `float(s)` on a string, restricted to the plain decimal form
`[+-]?digits[.digits]` (exponents, infinities and leading-dot forms are not
modelled; no claim exercises them). -/
def floatStrToRat (s : String) : Option ℚ :=
  let go : List Char → Option ℚ := fun cs =>
    match cs.span Char.isDigit with
    | (ip, rest) =>
      if ip.isEmpty then none
      else
        match rest with
        | [] => some (natToRat (digitsToNat ip))
        | '.' :: fp =>
          if fp.all Char.isDigit then
            some (ratAdd (natToRat (digitsToNat ip)) (mkRat (digitsToNat fp) (10 ^ fp.length)))
          else none
        | _ => none
  match stripChars s.toList with
  | '-' :: cs => (go cs).map ratNeg
  | '+' :: cs => go cs
  | cs => go cs

/-- Python `float(v)` on a JSON value. -/
def pyFloat : JVal → PyM ℚ
  | .num q => .ok q
  | .bool b => .ok (if b then 1 else 0)
  | .str s =>
    match floatStrToRat s with
    | some q => .ok q
    | none => .error ()
  | _ => .error ()

/-- Rendering of a rational for the model's `str()` conversion; Python's exact
Decimal and float reprs are not reproduced (no claim depends on them). -/
def numStr (q : ℚ) : String :=
  if q.den = 1 then toString q.num else toString q.num ++ ("/") ++ toString q.den

/-- Python `str(v)` as used inside f-strings; containers get a placeholder
rendering (no claim depends on container rendering). -/
def pyStr : JVal → String
  | .str s => s
  | .null => "None"
  | .bool b => if b then ("True") else ("False")
  | .num q => numStr q
  | .arr _ => "[...]"
  | .obj _ => "\x7b...\x7d"

/-- Components of a Python `datetime`, with an optional fixed UTC offset in
minutes (none for a naive datetime). -/
structure PyDateTime where
  year : Nat
  month : Nat
  day : Nat
  hour : Nat
  minute : Nat
  second : Nat
  offMinutes : Option Int

/-- Parse exactly two decimal digits. -/
def parseDigits2 : List Char → Option (Nat × List Char)
  | a :: b :: rest =>
    if a.isDigit && b.isDigit then some ((a.toNat - 48) * 10 + (b.toNat - 48), rest) else none
  | _ => none

/-- Parse exactly four decimal digits. -/
def parseDigits4 (cs : List Char) : Option (Nat × List Char) :=
  match parseDigits2 cs with
  | some (hi, rest) =>
    match parseDigits2 rest with
    | some (lo, rest2) => some (hi * 100 + lo, rest2)
    | none => none
  | none => none

/-- Parse a UTC offset suffix `+HH:MM` or `-HH:MM`; Python requires the offset
to be a valid time span strictly below 24 hours (offset seconds and fractions
are not modelled; no claim exercises them). -/
def parseOffset : List Char → Option (Int × List Char)
  | c :: rest =>
    if c == '+' || c == '-' then
      match parseDigits2 rest with
      | some (hh, r1) =>
        match r1 with
        | ':' :: r2 =>
          match parseDigits2 r2 with
          | some (mm, r3) =>
            if mm ≤ 59 && hh * 60 + mm < 1440 then
              some ((if c == '-' then -(hh * 60 + mm : Int) else (hh * 60 + mm : Int)), r3)
            else none
          | none => none
        | _ => none
      | none => none
    else none
  | [] => none

/-- Leap-year test (proleptic Gregorian, as Python's datetime). -/
def isLeap (y : Nat) : Bool := y % 4 == 0 && (y % 100 != 0 || y % 400 == 0)

/-- Number of days in a month. -/
def daysInMonth (y m : Nat) : Nat :=
  if m == 2 then (if isLeap y then 29 else 28)
  else if m == 4 || m == 6 || m == 9 || m == 11 then 30
  else 31

/-- Days from 1970-01-01 to the given civil date (Hinnant's algorithm,
restricted to the datetime year range 1..9999 where every division is on
nonnegative operands). -/
def daysFromCivil (y m d : Nat) : Int :=
  let y2 := if m ≤ 2 then y - 1 else y
  let era := y2 / 400
  let yoe := y2 % 400
  let mp := if m > 2 then m - 3 else m + 9
  let doy := (153 * mp + 2) / 5 + d - 1
  let doe := yoe * 365 + yoe / 4 - yoe / 100 + doy
  (era * 146097 + doe : Int) - 719468

/-- The time-part tail of `datetime.fromisoformat`: `HH[:MM[:SS]]` with an
optional `±HH:MM` offset (fractional seconds are not modelled; no claim
exercises them). -/
def parseIsoTime (cs : List Char) : Option (Nat × Nat × Nat × Option Int) :=
  match parseDigits2 cs with
  | none => none
  | some (hh, r1) =>
    if hh > 23 then none
    else
      match r1 with
      | [] => some (hh, 0, 0, none)
      | ':' :: r2 =>
        match parseDigits2 r2 with
        | none => none
        | some (mi, r3) =>
          if mi > 59 then none
          else
            match r3 with
            | [] => some (hh, mi, 0, none)
            | ':' :: r4 =>
              match parseDigits2 r4 with
              | none => none
              | some (ss, r5) =>
                if ss > 59 then none
                else
                  match r5 with
                  | [] => some (hh, mi, ss, none)
                  | _ =>
                    match parseOffset r5 with
                    | some (off, []) => some (hh, mi, ss, some off)
                    | _ => none
            | _ =>
              match parseOffset r3 with
              | some (off, []) => some (hh, mi, 0, some off)
              | _ => none
      | _ =>
        match parseOffset r1 with
        | some (off, []) => some (hh, 0, 0, some off)
        | _ => none

/-- Model of `datetime.fromisoformat`, restricted to
`YYYY-MM-DD[<sep>HH[:MM[:SS]]][±HH:MM]` — the subset the repository's data
contains (fractional seconds are not modelled). The separator between date and
time may be any single character, as in CPython. -/
def fromisoformat (s : List Char) : Option PyDateTime :=
  match parseDigits4 s with
  | none => none
  | some (y, r1) =>
    match r1 with
    | '-' :: r2 =>
      match parseDigits2 r2 with
      | none => none
      | some (m, r3) =>
        match r3 with
        | '-' :: r4 =>
          match parseDigits2 r4 with
          | none => none
          | some (d, r5) =>
            if y < 1 || m < 1 || m > 12 || d < 1 || d > daysInMonth y m then none
            else
              match r5 with
              | [] => some ⟨y, m, d, 0, 0, 0, none⟩
              | _sep :: r6 =>
                match parseIsoTime r6 with
                | some (hh, mi, ss, off) => some ⟨y, m, d, hh, mi, ss, off⟩
                | none => none
        | _ => none
    | _ => none

/-- Epoch milliseconds of a parsed datetime: `int(dt.timestamp() * 1000)`.
A naive datetime is interpreted in the host's local timezone, threaded through
the model as the explicit offset `tzOff` in minutes. For this datetime range
the float arithmetic of `timestamp()` is exact at millisecond granularity. -/
def dtToEpochMs (tzOff : Int) (dt : PyDateTime) : Int :=
  let days := daysFromCivil dt.year dt.month dt.day
  let secs : Int := days * 86400 + dt.hour * 3600 + dt.minute * 60 + dt.second
  (secs - (dt.offMinutes.getD tzOff) * 60) * 1000

/-- ISO-8601 branch of the timestamp parser. -/
def isoToEpochMs (tzOff : Int) (s : List Char) : Option Int :=
  (fromisoformat s).map (dtToEpochMs tzOff)

/-- Replace every occurrence of the character `Z` by `+00:00`, the effect of
the source's `timestamp_data.replace('Z', '+00:00')` (the pattern is a single
character, so general substring replacement is not needed). -/
def replaceZ : List Char → List Char
  | [] => []
  | c :: rest =>
    if c == 'Z' then '+' :: '0' :: '0' :: ':' :: '0' :: '0' :: replaceZ rest
    else c :: replaceZ rest

/-- Digit-string test `s.isdigit()` (ASCII digits). -/
def strIsDigits (s : String) : Bool := s != "" && s.toList.all Char.isDigit

/-- Model of `_parse_timestamp`: normalize a timestamp of unknown shape to
epoch milliseconds, or `none`. Mirrors the source's order: falsy values
short-circuit to `None` at entry; numbers truncate via `int()` (a Python bool
is an `int` instance, so `True` yields 1); digit strings parse as integer
milliseconds; other strings go through `fromisoformat` after replacing every
`Z` by `+00:00`; dicts try `int(d[timestampMs])` first, then recurse into the
first `timestamp` field; everything else, and any failure, yields `none`. -/
def _parse_timestamp (tzOff : Int) : JVal → Option Int
  | .null => none
  | .bool b => if b then some 1 else none
  | .num q => if q == 0 then none else some (pyIntTrunc q)
  | .str s =>
    if s == "" then none
    else if strIsDigits s then some ((digitsToNat s.toList : Int))
    else isoToEpochMs tzOff (replaceZ s.toList)
  | .arr _ => none
  | .obj kvs =>
    if kvs.isEmpty then none
    else
      match List.lookup ("timestampMs") kvs with
      | some w => pyInt w
      | none => tsRecurse tzOff kvs
where
  /-- Walk the dict's fields for the first `timestamp` key and normalize its
  value recursively (the fallback branch of `_parse_timestamp`). -/
  tsRecurse (tzOff : Int) : List (String × JVal) → Option Int
  | [] => none
  | (k, v) :: rest => if k == "timestamp" then _parse_timestamp tzOff v else tsRecurse tzOff rest

/-- One match of the coordinate regexp `[-]?\d+\.\d+`: sign, integer digits,
fraction digits. -/
structure DecMatch where
  neg : Bool
  intPart : List Char
  fracPart : List Char

/-- Match the coordinate regexp at the head of the input; on success return the
match and the remaining characters. Digit runs are maximal, as with the greedy
regexp (the digit and dot character classes are disjoint, so greediness never
needs backtracking). -/
def matchDecimal (cs : List Char) : Option (DecMatch × List Char) :=
  let core : List Char → Bool → Option (DecMatch × List Char) := fun l neg =>
    match l.span Char.isDigit with
    | (d1, rest) =>
      if d1.isEmpty then none
      else
        match rest with
        | '.' :: r2 =>
          match r2.span Char.isDigit with
          | (d2, r3) => if d2.isEmpty then none else some (⟨neg, d1, d2⟩, r3)
        | _ => none
  match cs with
  | '-' :: t => core t true
  | _ => core cs false

/-- All matches of the coordinate regexp in left-to-right order, non-overlapping,
as `re.findall` produces them. The fuel argument is always instantiated with the
input length, which suffices because every step consumes at least one
character; it never changes the result. -/
def findAllDecimals : Nat → List Char → List DecMatch
  | 0, _ => []
  | _, [] => []
  | fuel + 1, c :: rest =>
    match matchDecimal (c :: rest) with
    | some (m, r2) => m :: findAllDecimals fuel r2
    | none => findAllDecimals fuel rest

/-- Numeric value of a regexp match — `float(c)` on the matched text, modelled
exactly as a rational. -/
def decValue (m : DecMatch) : ℚ :=
  let mag : ℚ :=
    ratAdd (natToRat (digitsToNat m.intPart)) (mkRat (digitsToNat m.fracPart) (10 ^ m.fracPart.length))
  if m.neg then ratNeg mag else mag

/-- Model of `parse_lat_lng_string` (defined identically inside the semantic
segments and root array processors): find every `[-]?\d+\.\d+` match in the
string and succeed with the pair exactly when there are two; non-strings and
strings with any other number of matches yield `None`. -/
def parse_lat_lng_string : JVal → Option (ℚ × ℚ)
  | .str s =>
    match (findAllDecimals s.toList.length s.toList).map decValue with
    | [a, b] => some (a, b)
    | _ => none
  | _ => none

/-- Origin tag of a canonical point. -/
inductive Source where
  | path : Source
  | visit : Source
  | activity : Source
deriving DecidableEq

/-- A canonical extracted point — the dicts appended to `points` by the four
processors. `placeID` and `semanticType` hold whatever JSON value the source
record provided (`null` when the code stores Python `None`). -/
structure Point where
  lat : ℚ
  lon : ℚ
  timestamp : Option Int
  placeID : JVal
  semanticType : JVal
  probability : ℚ
  source : Source

/-- The pipeline options the extraction code reads from `CONFIG`. -/
structure Config where
  INCLUDE_VISITS : Bool
  INCLUDE_ACTIVITIES : Bool
  INCLUDE_RAW_PATH : Bool
  INTERPOLATE_MISSING_TIMESTAMPS : Bool
deriving DecidableEq

/-- Result of running the body of one per-record loop iteration: the points
appended to the shared `points` list, and whether an exception escaped the
body. Appends made before a raise persist — list mutation is not rolled
back when the per-record handler catches the exception. -/
inductive RecResult where
  | ok (pts : List Point) : RecResult
  | raised (pts : List Point) : RecResult

/-- Points accumulated by a loop body, whether or not it raised. -/
def RecResult.pts : RecResult → List Point
  | .ok l => l
  | .raised l => l

/-- Did the loop body raise? -/
def RecResult.isRaised : RecResult → Bool
  | .ok _ => false
  | .raised _ => true

/-- Prepend an already-appended point to a loop continuation's result. -/
def RecResult.cons (p : Point) : RecResult → RecResult
  | .ok l => .ok (p :: l)
  | .raised l => .raised (p :: l)

/-- Sequence two appending computations: a raise in the first skips the second
but keeps the first's appends. -/
def RecResult.seq : RecResult → RecResult → RecResult
  | .ok l1, .ok l2 => .ok (l1 ++ l2)
  | .ok l1, .raised l2 => .raised (l1 ++ l2)
  | .raised l1, _ => .raised l1

/-- Python truthiness of an optional epoch-millisecond value (`not point_time`
is true both for `None` and for 0). -/
def optTruthy : Option Int → Bool
  | none => false
  | some t => t != 0

/-- The interpolation formula
`int(start_time + (end_time - start_time) * (idx / max(count - 1, 1)))`,
computed exactly in rationals and truncated toward zero by `int()`. -/
def interpTime (s e : Int) (idx n : Nat) : Int :=
  pyIntTrunc (ratAdd (intToRat s)
    (ratMul (ratSub (intToRat e) (intToRat s)) (ratDiv (natToRat idx) (natToRat (max (n - 1) 1)))))

/-- Timestamp selection for one path point: keep the point's own (truthy)
timestamp; otherwise interpolate — but only when the interpolation option is
on and both segment bounds are truthy (nonzero and present), mirroring
`if not point_time and config[...] and start_time and end_time`. -/
def choosePointTime (cfg : Config) (startT endT ownT : Option Int) (idx n : Nat) : Option Int :=
  if !optTruthy ownT && cfg.INTERPOLATE_MISSING_TIMESTAMPS && optTruthy startT && optTruthy endT
  then some (interpTime (startT.getD 0) (endT.getD 0) idx n)
  else ownT

/-- The coordinate scaling `x * 1e-7`, exact in rationals; Python raises
`TypeError` when `x` is not numeric (a bool multiplies as 0 or 1). -/
def pyMulE7 : JVal → PyM ℚ
  | .num q => .ok (mkRat q.num (q.den * 10000000))
  | .bool b => .ok (if b then mkRat 1 10000000 else 0)
  | _ => .error ()

/-- Exception classes the pipeline's handlers distinguish:
`ijson.common.IncompleteJSONError` versus everything else. -/
inductive PyErr where
  | incompleteJSON : PyErr
  | other : PyErr
deriving DecidableEq

/-- Per-record body of the `_process_locations_format` loop: scale the E7
coordinate pair, normalize the timestamp from `timestampMs` or `timestamp`,
and emit one path-tagged point with the generic `Location` label; records
without both E7 keys contribute nothing. This variant has no per-record
exception handler in the source, so a raise here propagates to the caller. -/
def processLocRecord (tzOff : Int) (loc : JVal) : RecResult :=
  match pyIn ("latitudeE7") loc with
  | .error _ => .raised []
  | .ok false => .ok []
  | .ok true =>
    match pyIn ("longitudeE7") loc with
    | .error _ => .raised []
    | .ok false => .ok []
    | .ok true =>
      match pyIndex loc ("latitudeE7") with
      | .error _ => .raised []
      | .ok lav =>
        match pyMulE7 lav with
        | .error _ => .raised []
        | .ok la =>
          match pyIndex loc ("longitudeE7") with
          | .error _ => .raised []
          | .ok lov =>
            match pyMulE7 lov with
            | .error _ => .raised []
            | .ok lo =>
              match pyGet loc ("timestampMs") .null with
              | .error _ => .raised []
              | .ok t1 =>
                match (if pyTruthy t1 then Except.ok t1 else pyGet loc ("timestamp") .null) with
                | .error _ => .raised []
                | .ok tv =>
                  .ok [⟨la, lo, _parse_timestamp tzOff tv, .null, .str ("Location"), 0, .path⟩]

/-- Accumulation loop of `_process_locations_format`: with no per-record
handler, the first raising record aborts the call, discarding every point
appended so far (the local list dies with the raising frame). -/
def locPoints (tzOff : Int) : List JVal → Except PyErr (List Point)
  | [] => .ok []
  | l :: rest =>
    match processLocRecord tzOff l with
    | .raised _ => .error .other
    | .ok ps =>
      match locPoints tzOff rest with
      | .error e => .error e
      | .ok tail => .ok (ps ++ tail)

/-- Model of `_process_locations_format`: run the accumulation loop over the
stream's items; if the stream then faults, `IncompleteJSONError` propagates
and the local points list is lost. Reads no configuration. -/
def _process_locations_format (tzOff : Int) (stream : List JVal × Bool) :
    Except PyErr (List Point) :=
  match locPoints tzOff stream.1 with
  | .error e => .error e
  | .ok pts => if stream.2 then .error .incompleteJSON else .ok pts

/-- A raw path point emitted by the timeline-path branches: no place, no
semantic label, zero probability, path source. -/
def mkPathPoint (la lo : ℚ) (t : Option Int) : Point := ⟨la, lo, t, .null, .null, 0, .path⟩

/-- The timeline-path loop of `_process_semantic_segments_format`: for each
path point whose `point` string decodes to a coordinate pair, choose its
timestamp (own `time`/`timestamp` field, or interpolation) and append a raw
path point. A raise keeps the points appended at earlier indices. -/
def pathLoop (tzOff : Int) (cfg : Config) (startT endT : Option Int) (n : Nat) :
    Nat → List JVal → RecResult
  | _, [] => .ok []
  | idx, pp :: rest =>
    match pyGet pp ("point") .null with
    | .error _ => .raised []
    | .ok ptv =>
      match parse_lat_lng_string ptv with
      | none => pathLoop tzOff cfg startT endT n (idx + 1) rest
      | some (la, lo) =>
        match pyGet pp ("time") .null with
        | .error _ => .raised []
        | .ok t1 =>
          match (if pyTruthy t1 then Except.ok t1 else pyGet pp ("timestamp") .null) with
          | .error _ => .raised []
          | .ok tv =>
            RecResult.cons
              (mkPathPoint la lo
                (choosePointTime cfg startT endT (_parse_timestamp tzOff tv) idx n))
              (pathLoop tzOff cfg startT endT n (idx + 1) rest)

/-- The `timelinePath` branch of a semantic segment: read the path and the
segment's start and end times, then run the path loop over the path's items
(iterating a non-list the way Python would: dict keys or string characters). -/
def segPathBranch (tzOff : Int) (cfg : Config) (seg : JVal) : RecResult :=
  match pyGet seg ("timelinePath") (.arr []) with
  | .error _ => .raised []
  | .ok tp =>
    match pyGet seg ("startTime") .null with
    | .error _ => .raised []
    | .ok sv =>
      match pyGet seg ("endTime") .null with
      | .error _ => .raised []
      | .ok ev =>
        match pyIter tp with
        | .error _ => .raised []
        | .ok items =>
          pathLoop tzOff cfg (_parse_timestamp tzOff sv) (_parse_timestamp tzOff ev)
            items.length 0 items

/-- The `visit` branch of a semantic segment: decode the nested
`visit.topCandidate.placeLocation.latLng` string data and emit one
visit-tagged point carrying place id, semantic type and probability. -/
def segVisitBranch (tzOff : Int) (seg : JVal) : RecResult :=
  match pyGet seg ("visit") (.obj []) with
  | .error _ => .raised []
  | .ok visit =>
    match pyGet visit ("topCandidate") (.obj []) with
    | .error _ => .raised []
    | .ok tc =>
      match pyGet tc ("placeLocation") (.obj []) with
      | .error _ => .raised []
      | .ok pl =>
        match pyGet pl ("latLng") .null with
        | .error _ => .raised []
        | .ok latLng =>
          if pyTruthy latLng then
            match parse_lat_lng_string latLng with
            | none => .ok []
            | some (la, lo) =>
              match pyGet visit ("startTime") .null with
              | .error _ => .raised []
              | .ok vst =>
                match (if pyTruthy vst then Except.ok vst else pyGet seg ("startTime") .null) with
                | .error _ => .raised []
                | .ok tsv =>
                  match pyGet tc ("placeID") .null with
                  | .error _ => .raised []
                  | .ok pid =>
                    match pyGet tc ("semanticType") (.str "Unknown Location") with
                    | .error _ => .raised []
                    | .ok st =>
                      match pyGet tc ("probability") .null with
                      | .error _ => .raised []
                      | .ok probRaw =>
                        match (if pyTruthy probRaw then pyFloat probRaw else .ok 0) with
                        | .error _ => .raised []
                        | .ok prob =>
                          .ok [⟨la, lo, _parse_timestamp tzOff tsv, pid, st, prob, .visit⟩]
          else .ok []

/-- One endpoint of a semantic segment's `activity` (the start or end half of
the branch): decode `latLng`, pick the endpoint's own time or the segment's
bound, and emit one activity-tagged point with the `Activity (<type>)` label. -/
def semActEndpoint (tzOff : Int) (seg act : JVal) (endKey timeKey segKey : String)
    (label : JVal) : RecResult :=
  match pyGet act endKey (.obj []) with
  | .error _ => .raised []
  | .ok endObj =>
    match pyGet endObj ("latLng") .null with
    | .error _ => .raised []
    | .ok ll =>
      if pyTruthy ll then
        match parse_lat_lng_string ll with
        | none => .ok []
        | some (la, lo) =>
          match pyGet endObj timeKey .null with
          | .error _ => .raised []
          | .ok tv1 =>
            match (if pyTruthy tv1 then Except.ok tv1 else pyGet seg segKey .null) with
            | .error _ => .raised []
            | .ok tv =>
              .ok [⟨la, lo, _parse_timestamp tzOff tv, .null, label, 0, .activity⟩]
      else .ok []

/-- The `activity` branch of a semantic segment: fetch the activity type label
once, then process the start and end endpoints in order (a raise in the first
skips the second but keeps its own appends). -/
def segActivityBranch (tzOff : Int) (seg : JVal) : RecResult :=
  match pyGet seg ("activity") (.obj []) with
  | .error _ => .raised []
  | .ok act =>
    match pyGet act ("topCandidate") (.obj []) with
    | .error _ => .raised []
    | .ok tc =>
      match pyGet tc ("type") (.str "Unknown") with
      | .error _ => .raised []
      | .ok atype =>
        let label : JVal := .str ("Activity (" ++ pyStr atype ++ ")")
        RecResult.seq (semActEndpoint tzOff seg act ("start") ("time") ("startTime") label)
          (semActEndpoint tzOff seg act ("end") ("time") ("endTime") label)

/-- The visit-then-activity tail of the semantic segment dispatch (reached when
the raw-path branch was not taken). Each guard short-circuits: the membership
test only runs when the corresponding option is on. -/
def processSegmentAfterPath (tzOff : Int) (cfg : Config) (seg : JVal) : RecResult :=
  if cfg.INCLUDE_VISITS then
    match pyIn ("visit") seg with
    | .error _ => .raised []
    | .ok true => segVisitBranch tzOff seg
    | .ok false =>
      if cfg.INCLUDE_ACTIVITIES then
        match pyIn ("activity") seg with
        | .error _ => .raised []
        | .ok true => segActivityBranch tzOff seg
        | .ok false => .ok []
      else .ok []
  else
    if cfg.INCLUDE_ACTIVITIES then
      match pyIn ("activity") seg with
      | .error _ => .raised []
      | .ok true => segActivityBranch tzOff seg
      | .ok false => .ok []
    else .ok []

/-- Per-segment body of `_process_semantic_segments_format`: the source's
`if/elif` chain gives the raw path (when enabled) precedence over `visit`,
and `visit` precedence over `activity`; at most one branch runs. -/
def processSegment (tzOff : Int) (cfg : Config) (seg : JVal) : RecResult :=
  if cfg.INCLUDE_RAW_PATH then
    match pyIn ("timelinePath") seg with
    | .error _ => .raised []
    | .ok true => segPathBranch tzOff cfg seg
    | .ok false => processSegmentAfterPath tzOff cfg seg
  else processSegmentAfterPath tzOff cfg seg

/-- Accumulation loop of `_process_semantic_segments_format`: the per-segment
try/except keeps whatever the body appended and always continues with the
next segment. -/
def semanticPoints (tzOff : Int) (cfg : Config) : List JVal → List Point
  | [] => []
  | s :: rest => (processSegment tzOff cfg s).pts ++ semanticPoints tzOff cfg rest

/-- Model of `_process_semantic_segments_format`: errors inside a segment are
isolated per segment; a stream fault after the yielded items raises
`IncompleteJSONError`, losing the local points list. -/
def _process_semantic_segments_format (tzOff : Int) (cfg : Config) (stream : List JVal × Bool) :
    Except PyErr (List Point) :=
  if stream.2 then .error .incompleteJSON else .ok (semanticPoints tzOff cfg stream.1)

/-- One endpoint of a root-array record's `activity`: the coordinate is a bare
string (`activity.start` / `activity.end`) decoded directly; the timestamp
prefers the activity's own bound over the record's; the type label is fetched
inside each endpoint, as in the source. -/
def rootActEndpoint (tzOff : Int) (r act : JVal) (coordKey timeKey recKey : String) : RecResult :=
  match pyGet act coordKey .null with
  | .error _ => .raised []
  | .ok cv =>
    match parse_lat_lng_string cv with
    | none => .ok []
    | some (la, lo) =>
      match pyGet act timeKey .null with
      | .error _ => .raised []
      | .ok tv1 =>
        match (if pyTruthy tv1 then Except.ok tv1 else pyGet r recKey .null) with
        | .error _ => .raised []
        | .ok tv =>
          match pyGet act ("topCandidate") (.obj []) with
          | .error _ => .raised []
          | .ok tc =>
            match pyGet tc ("type") (.str "Unknown") with
            | .error _ => .raised []
            | .ok atype =>
              .ok [⟨la, lo, _parse_timestamp tzOff tv, .null,
                .str ("Activity (" ++ pyStr atype ++ ")"), 0, .activity⟩]

/-- The `visit` branch of a root-array record: like the semantic segments
visit but `placeLocation` is itself the coordinate string. -/
def rootVisitBranch (tzOff : Int) (r : JVal) : RecResult :=
  match pyGet r ("visit") (.obj []) with
  | .error _ => .raised []
  | .ok visit =>
    match pyGet visit ("topCandidate") (.obj []) with
    | .error _ => .raised []
    | .ok tc =>
      match pyGet tc ("placeLocation") .null with
      | .error _ => .raised []
      | .ok latLng =>
        if pyTruthy latLng then
          match parse_lat_lng_string latLng with
          | none => .ok []
          | some (la, lo) =>
            match pyGet visit ("startTime") .null with
            | .error _ => .raised []
            | .ok vst =>
              match (if pyTruthy vst then Except.ok vst else pyGet r ("startTime") .null) with
              | .error _ => .raised []
              | .ok tsv =>
                match pyGet tc ("placeID") .null with
                | .error _ => .raised []
                | .ok pid =>
                  match pyGet tc ("semanticType") (.str "Unknown Location") with
                  | .error _ => .raised []
                  | .ok st =>
                    match pyGet tc ("probability") .null with
                    | .error _ => .raised []
                    | .ok probRaw =>
                      match (if pyTruthy probRaw then pyFloat probRaw else .ok 0) with
                      | .error _ => .raised []
                      | .ok prob =>
                        .ok [⟨la, lo, _parse_timestamp tzOff tsv, pid, st, prob, .visit⟩]
        else .ok []

/-- Per-record body of `_process_root_array_format`: `visit` (when enabled)
takes precedence over `activity`; an activity contributes its start and end
endpoints in order. -/
def processRootRecord (tzOff : Int) (cfg : Config) (r : JVal) : RecResult :=
  if cfg.INCLUDE_VISITS then
    match pyIn ("visit") r with
    | .error _ => .raised []
    | .ok true => rootVisitBranch tzOff r
    | .ok false => processRootAfterVisit tzOff cfg r
  else processRootAfterVisit tzOff cfg r
where
  /-- The activity tail of the root-array record dispatch. -/
  processRootAfterVisit (tzOff : Int) (cfg : Config) (r : JVal) : RecResult :=
  if cfg.INCLUDE_ACTIVITIES then
    match pyIn ("activity") r with
    | .error _ => .raised []
    | .ok true =>
      match pyGet r ("activity") (.obj []) with
      | .error _ => .raised []
      | .ok act =>
        RecResult.seq (rootActEndpoint tzOff r act ("start") ("startTime") ("startTime"))
          (rootActEndpoint tzOff r act ("end") ("endTime") ("endTime"))
    | .ok false => .ok []
  else .ok []

/-- Accumulation loop of `_process_root_array_format` (per-record isolation). -/
def rootPoints (tzOff : Int) (cfg : Config) : List JVal → List Point
  | [] => []
  | r :: rest => (processRootRecord tzOff cfg r).pts ++ rootPoints tzOff cfg rest

/-- Model of `_process_root_array_format`. -/
def _process_root_array_format (tzOff : Int) (cfg : Config) (stream : List JVal × Bool) :
    Except PyErr (List Point) :=
  if stream.2 then .error .incompleteJSON else .ok (rootPoints tzOff cfg stream.1)

/-- The `placeVisit` branch of a timeline object: E7-scaled coordinates,
duration-derived timestamp (`startTimestamp` preferred over
`startTimestampMs`), semantic type and place id read from the location first,
the visit second. -/
def tlVisitBranch (tzOff : Int) (t : JVal) : RecResult :=
  match pyGet t ("placeVisit") (.obj []) with
  | .error _ => .raised []
  | .ok pv =>
    match pyGet pv ("location") (.obj []) with
    | .error _ => .raised []
    | .ok loc =>
      if pyTruthy loc then
        match pyIn ("latitudeE7") loc with
        | .error _ => .raised []
        | .ok false => .ok []
        | .ok true =>
          match pyIn ("longitudeE7") loc with
          | .error _ => .raised []
          | .ok false => .ok []
          | .ok true =>
            match pyGet pv ("duration") (.obj []) with
            | .error _ => .raised []
            | .ok dur =>
              match pyGet dur ("startTimestamp") .null with
              | .error _ => .raised []
              | .ok ts1 =>
                match (if pyTruthy ts1 then Except.ok ts1
                       else pyGet dur ("startTimestampMs") .null) with
                | .error _ => .raised []
                | .ok tsv =>
                  match pyGet loc ("semanticType") .null with
                  | .error _ => .raised []
                  | .ok st1 =>
                    match (if pyTruthy st1 then Except.ok st1
                           else pyGet pv ("semanticType") (.str "Unknown Location")) with
                    | .error _ => .raised []
                    | .ok st =>
                      match pyGet loc ("placeId") .null with
                      | .error _ => .raised []
                      | .ok pid1 =>
                        match (if pyTruthy pid1 then Except.ok pid1
                               else pyGet pv ("placeId") .null) with
                        | .error _ => .raised []
                        | .ok pid =>
                          match pyIndex loc ("latitudeE7") with
                          | .error _ => .raised []
                          | .ok lav =>
                            match pyMulE7 lav with
                            | .error _ => .raised []
                            | .ok la =>
                              match pyIndex loc ("longitudeE7") with
                              | .error _ => .raised []
                              | .ok lov =>
                                match pyMulE7 lov with
                                | .error _ => .raised []
                                | .ok lo =>
                                  .ok [⟨la, lo, _parse_timestamp tzOff tsv, pid, st, 0, .visit⟩]
      else .ok []

/-- One endpoint (`startLocation` / `endLocation`) of a timeline activity
segment: E7-scaled coordinates with the already-computed bound timestamp. -/
def tlActEndpoint (seg : JVal) (locKey : String) (ts : Option Int) (label : JVal) : RecResult :=
  match pyGet seg locKey .null with
  | .error _ => .raised []
  | .ok locV =>
    if pyTruthy locV then
      match pyIn ("latitudeE7") locV with
      | .error _ => .raised []
      | .ok false => .ok []
      | .ok true =>
        match pyIn ("longitudeE7") locV with
        | .error _ => .raised []
        | .ok false => .ok []
        | .ok true =>
          match pyIndex locV ("latitudeE7") with
          | .error _ => .raised []
          | .ok lav =>
            match pyMulE7 lav with
            | .error _ => .raised []
            | .ok la =>
              match pyIndex locV ("longitudeE7") with
              | .error _ => .raised []
              | .ok lov =>
                match pyMulE7 lov with
                | .error _ => .raised []
                | .ok lo => .ok [⟨la, lo, ts, .null, label, 0, .activity⟩]
    else .ok []

/-- The simplified-raw-path loop of a timeline activity segment: E7-scaled
points with interpolated timestamps (the points carry no timestamps of their
own, so `point_time` starts as `None` each iteration). -/
def tlRawLoop (cfg : Config) (startT endT : Option Int) (n : Nat) :
    Nat → List JVal → RecResult
  | _, [] => .ok []
  | idx, p :: rest =>
    match pyIn ("latE7") p with
    | .error _ => .raised []
    | .ok false => tlRawLoop cfg startT endT n (idx + 1) rest
    | .ok true =>
      match pyIn ("lngE7") p with
      | .error _ => .raised []
      | .ok false => tlRawLoop cfg startT endT n (idx + 1) rest
      | .ok true =>
        match pyIndex p ("latE7") with
        | .error _ => .raised []
        | .ok lav =>
          match pyMulE7 lav with
          | .error _ => .raised []
          | .ok la =>
            match pyIndex p ("lngE7") with
            | .error _ => .raised []
            | .ok lov =>
              match pyMulE7 lov with
              | .error _ => .raised []
              | .ok lo =>
                RecResult.cons
                  (mkPathPoint la lo (choosePointTime cfg startT endT none idx n))
                  (tlRawLoop cfg startT endT n (idx + 1) rest)

/-- The raw-path part of a timeline activity segment, run only when the
raw-path option is on and the segment carries a truthy `simplifiedRawPath`. -/
def tlRawPart (cfg : Config) (seg : JVal) (startT endT : Option Int) : RecResult :=
  if cfg.INCLUDE_RAW_PATH then
    match pyGet seg ("simplifiedRawPath") .null with
    | .error _ => .raised []
    | .ok rp =>
      if pyTruthy rp then
        match pyGet rp ("points") (.arr []) with
        | .error _ => .raised []
        | .ok ptsV =>
          match pyIter ptsV with
          | .error _ => .raised []
          | .ok items => tlRawLoop cfg startT endT items.length 0 items
      else .ok []
  else .ok []

/-- The `activitySegment` branch of a timeline object: duration-derived start
and end timestamps, the two endpoint points, then the optional raw path. -/
def tlActivityBranch (tzOff : Int) (cfg : Config) (t : JVal) : RecResult :=
  match pyGet t ("activitySegment") (.obj []) with
  | .error _ => .raised []
  | .ok seg =>
    match pyGet seg ("duration") (.obj []) with
    | .error _ => .raised []
    | .ok dur =>
      match pyGet dur ("startTimestamp") .null with
      | .error _ => .raised []
      | .ok s1 =>
        match (if pyTruthy s1 then Except.ok s1 else pyGet dur ("startTimestampMs") .null) with
        | .error _ => .raised []
        | .ok sv =>
          match pyGet dur ("endTimestamp") .null with
          | .error _ => .raised []
          | .ok e1 =>
            match (if pyTruthy e1 then Except.ok e1 else pyGet dur ("endTimestampMs") .null) with
            | .error _ => .raised []
            | .ok ev =>
              match pyGet seg ("activityType") (.str "Unknown") with
              | .error _ => .raised []
              | .ok atype =>
                let label : JVal := .str ("Activity (" ++ pyStr atype ++ ")")
                let startT := _parse_timestamp tzOff sv
                let endT := _parse_timestamp tzOff ev
                RecResult.seq (tlActEndpoint seg ("startLocation") startT label)
                  (RecResult.seq (tlActEndpoint seg ("endLocation") endT label)
                    (tlRawPart cfg seg startT endT))

/-- Per-object body of `_process_timeline_objects_format`: `placeVisit` (when
visits are enabled) takes precedence over `activitySegment`. -/
def processTimelineObj (tzOff : Int) (cfg : Config) (t : JVal) : RecResult :=
  if cfg.INCLUDE_VISITS then
    match pyIn ("placeVisit") t with
    | .error _ => .raised []
    | .ok true => tlVisitBranch tzOff t
    | .ok false => processTlAfterVisit tzOff cfg t
  else processTlAfterVisit tzOff cfg t
where
  /-- The activity tail of the timeline object dispatch. -/
  processTlAfterVisit (tzOff : Int) (cfg : Config) (t : JVal) : RecResult :=
  if cfg.INCLUDE_ACTIVITIES then
    match pyIn ("activitySegment") t with
    | .error _ => .raised []
    | .ok true => tlActivityBranch tzOff cfg t
    | .ok false => .ok []
  else .ok []

/-- Accumulation loop of `_process_timeline_objects_format` (per-object
isolation). -/
def timelinePoints (tzOff : Int) (cfg : Config) : List JVal → List Point
  | [] => []
  | t :: rest => (processTimelineObj tzOff cfg t).pts ++ timelinePoints tzOff cfg rest

/-- Model of `_process_timeline_objects_format`. -/
def _process_timeline_objects_format (tzOff : Int) (cfg : Config) (stream : List JVal × Bool) :
    Except PyErr (List Point) :=
  if stream.2 then .error .incompleteJSON else .ok (timelinePoints tzOff cfg stream.1)

/-- The four schema classifications the sniffer can produce. -/
inductive DetectedFormat where
  | root_array : DetectedFormat
  | locations : DetectedFormat
  | semanticSegments : DetectedFormat
  | timelineObjects : DetectedFormat
deriving DecidableEq

/-- Model of the format sniff in `extract_locations`: take the file's first
4096 bytes (the file is modelled as text, one character per byte — the
repository's inputs are ASCII JSON), strip whitespace from both ends, then
classify: a `[` prefix is the root array; a `{` prefix is classified by
substring search for the keys `"locations"`, `"semanticSegments"`,
`"timelineObjects"` in that priority order; everything else, or an object
matching no key, is unrecognized (`none`). -/
def detect_format (text : String) : Option DetectedFormat :=
  let pfx := stripChars (text.toList.take 4096)
  if startsWithChars pfx (("[").toList) then some .root_array
  else if startsWithChars pfx (("\x7b").toList) then
    if containsChars pfx (("\"locations\"").toList) then some .locations
    else if containsChars pfx (("\"semanticSegments\"").toList) then some .semanticSegments
    else if containsChars pfx (("\"timelineObjects\"").toList) then some .timelineObjects
    else none
  else none

/-- A readable input file: its raw text (consumed only by the sniffing step)
and the item streams `ijson.items` yields for each of the four queries the
code can issue — the complete items produced before the stream ends or
faults, paired with whether iterating past them raises
`IncompleteJSONError` (a structural fault such as a truncated file). The
streaming parser itself is external (`ijson`), so it is modelled abstractly
by its outputs. -/
structure ModelFile where
  text : String
  locationsItems : List JVal × Bool
  semanticItems : List JVal × Bool
  timelineItems : List JVal × Bool
  rootItems : List JVal × Bool

/-- Model of `extract_locations`, the pipeline entry point. `none` for the
input file models `FileNotFoundError`. After sniffing, the matching processor
runs; `IncompleteJSONError` is caught, but the local `points` assignment never
completed, so the caught branch falls through with the initial empty list;
`FileNotFoundError` and any other exception return `None`; an unrecognized
format returns `None`; an empty extraction result returns `None`; otherwise
the non-empty point list is returned. -/
def extract_locations (tzOff : Int) (cfg : Config) (file : Option ModelFile) :
    Option (List Point) :=
  match file with
  | none => none
  | some f =>
    match detect_format f.text with
    | none => none
    | some fmt =>
      let res : Except PyErr (List Point) :=
        match fmt with
        | .root_array => _process_root_array_format tzOff cfg f.rootItems
        | .locations => _process_locations_format tzOff f.locationsItems
        | .semanticSegments => _process_semantic_segments_format tzOff cfg f.semanticItems
        | .timelineObjects => _process_timeline_objects_format tzOff cfg f.timelineItems
      match res with
      | .error .incompleteJSON => none
      | .error .other => none
      | .ok pts => if pts.isEmpty then none else some pts

/-- The repository's default data-processing options: visits, activities, raw
path and interpolation all enabled (the `CONFIG` defaults). -/
def cfgAll : Config := ⟨true, true, true, true⟩

/-- Claim C6: the sniffer classifies a trimmed prefix starting with `[` as the
root array; a prefix starting with `{` by substring search for the keys
`"locations"`, `"semanticSegments"`, `"timelineObjects"` in that priority
order; any other prefix, or an object with none of the keys, is unrecognized.
In particular `{}` and `"not json"` are unrecognized and a minimal document of
each of the four shapes is classified as its own shape. -/
theorem c6_format_sniffer :
    (∀ text : String,
      (startsWithChars (stripChars (text.toList.take 4096)) (("[").toList) = true →
        detect_format text = some DetectedFormat.root_array) ∧
      (startsWithChars (stripChars (text.toList.take 4096)) (("[").toList) = false →
        startsWithChars (stripChars (text.toList.take 4096)) (("\x7b").toList) = true →
        detect_format text =
          (if containsChars (stripChars (text.toList.take 4096)) (("\"locations\"").toList)
           then some DetectedFormat.locations
           else if containsChars (stripChars (text.toList.take 4096))
               (("\"semanticSegments\"").toList)
           then some DetectedFormat.semanticSegments
           else if containsChars (stripChars (text.toList.take 4096))
               (("\"timelineObjects\"").toList)
           then some DetectedFormat.timelineObjects
           else none)) ∧
      (startsWithChars (stripChars (text.toList.take 4096)) (("[").toList) = false →
        startsWithChars (stripChars (text.toList.take 4096)) (("\x7b").toList) = false →
        detect_format text = none)) ∧
    detect_format ("[]") = some DetectedFormat.root_array ∧
    detect_format ("\x7b\"locations\": []\x7d") = some DetectedFormat.locations ∧
    detect_format ("\x7b\"semanticSegments\": []\x7d") = some DetectedFormat.semanticSegments ∧
    detect_format ("\x7b\"timelineObjects\": []\x7d") = some DetectedFormat.timelineObjects ∧
    detect_format ("\x7b\x7d") = none ∧
    detect_format ("\"not json\"") = none := by
  refine ⟨?_, by decide, by decide, by decide, by decide, by decide, by decide⟩
  intro text
  refine ⟨fun h1 => ?_, fun h1 h2 => ?_, fun h1 h2 => ?_⟩
  · simp only [detect_format]
    rw [h1]
    rfl
  · simp only [detect_format]
    rw [h1, h2]
    rfl
  · simp only [detect_format]
    rw [h1, h2]
    rfl

/-- Witness for C6 at concrete inputs: a text starting with neither bracket is
unrecognized, and a bracketed text is classified by the stated rule. -/
theorem c6_format_sniffer_witness :
    detect_format ("not a json document") = none ∧
    detect_format ("  [1, 2]") = some DetectedFormat.root_array :=
  ⟨((c6_format_sniffer).1 ("not a json document")).2.2 (by decide) (by decide),
    ((c6_format_sniffer).1 ("  [1, 2]")).1 (by decide)⟩

/-- Claim C7: the coordinate decoder finds every `[-]?digits.digits` match in
left-to-right order and succeeds exactly when there are two, returning them as
(lat, lon) in match order; `geo:35.1,-47.2` decodes to (35.1, -47.2), while
strings with fewer or more matches, and non-strings, yield no match. -/
theorem c7_coordinate_decoder :
    (∀ s : String,
      parse_lat_lng_string (.str s) =
        (match (findAllDecimals s.toList.length s.toList).map decValue with
         | [a, b] => some (a, b)
         | _ => none)) ∧
    (∀ s : String, ∀ a b : ℚ,
      (findAllDecimals s.toList.length s.toList).map decValue = [a, b] →
      parse_lat_lng_string (.str s) = some (a, b)) ∧
    (∀ s : String,
      ((parse_lat_lng_string (.str s)).isSome = true ↔
        (findAllDecimals s.toList.length s.toList).length = 2)) ∧
    parse_lat_lng_string (.str "geo:35.1,-47.2") = some (mkRat 351 10, mkRat (-472) 10) ∧
    parse_lat_lng_string (.str "no numbers here") = none ∧
    parse_lat_lng_string (.str "one 1.0 number") = none ∧
    (∀ v : JVal, (∀ s, v ≠ .str s) → parse_lat_lng_string v = none) := by
  refine ⟨fun s => rfl, fun s a b h => ?_, fun s => ?_, by decide, by decide, by decide,
    fun v hv => ?_⟩
  · rw [parse_lat_lng_string, h]
  · rw [parse_lat_lng_string]
    rcases hL : findAllDecimals s.toList.length s.toList with _ | ⟨a, _ | ⟨b, _ | ⟨c, l⟩⟩⟩ <;>
      simp [hL]
  · cases v with
    | str s => exact absurd rfl (hv s)
    | null => rfl
    | bool b => rfl
    | num q => rfl
    | arr xs => rfl
    | obj kvs => rfl

/-- Witness for C7: applying the exactly-two rule at a concrete string with
two matches. -/
theorem c7_coordinate_decoder_witness :
    parse_lat_lng_string (.str "1.5 and -2.25") = some (mkRat 3 2, mkRat (-9) 4) :=
  (c7_coordinate_decoder).2.1 ("1.5 and -2.25") (mkRat 3 2) (mkRat (-9) 4) (by decide)

theorem tsRecurse_eq_lookup (tzOff : Int) (kvs : List (String × JVal)) :
    _parse_timestamp.tsRecurse tzOff kvs =
      (match List.lookup ("timestamp") kvs with
       | some w => _parse_timestamp tzOff w
       | none => none) := by
  induction kvs with
  | nil => rfl
  | cons p rest ih =>
    obtain ⟨k, v⟩ := p
    by_cases hk : k = "timestamp"
    · subst hk
      simp [_parse_timestamp.tsRecurse, List.lookup]
    · have hk2 : (k == "timestamp") = false := by
        simpa using hk
      have hk3 : (("timestamp" == k) : Bool) = false := by
        simpa using Ne.symm hk
      simp [_parse_timestamp.tsRecurse, List.lookup, hk2, hk3, ih]

/-- Counterexample for claim C3 as stated: the normalizer's first step is the
falsy check `if not timestamp_data`, so the numeric value 0 yields "unknown"
rather than the truncated integer 0 the claim's resolution order demands. -/
theorem c3_counterexample :
    _parse_timestamp 0 (.num 0) = none ∧ _parse_timestamp 0 (.num 0) ≠ some 0 := by
  refine ⟨rfl, ?_⟩
  intro h
  exact Option.noConfusion (rfl.trans h)

/-- Claim C3 as amended: falsy inputs (`None`, `False`, numeric 0, the empty
string, empty containers) return "unknown" immediately; otherwise a numeric
value truncates toward zero, a digit string parses as integer milliseconds,
any other string goes through ISO-8601 parsing with every `Z` replaced by
`+00:00`, and a dict resolves `timestampMs` (by integer conversion) before
recursing into `timestamp`; all failures return "unknown". The claim's five
example equations hold. -/
theorem c3_amended :
    (∀ tzOff : Int, ∀ q : ℚ, q ≠ 0 →
      _parse_timestamp tzOff (.num q) = some (pyIntTrunc q)) ∧
    (∀ tzOff : Int, _parse_timestamp tzOff (.num 0) = none) ∧
    (∀ tzOff : Int, ∀ s : String, s ≠ "" → strIsDigits s = true →
      _parse_timestamp tzOff (.str s) = some ((digitsToNat s.toList : Int))) ∧
    (∀ tzOff : Int, ∀ s : String, s ≠ "" → strIsDigits s = false →
      _parse_timestamp tzOff (.str s) = isoToEpochMs tzOff (replaceZ s.toList)) ∧
    (∀ tzOff : Int, ∀ kvs w, kvs ≠ [] → List.lookup ("timestampMs") kvs = some w →
      _parse_timestamp tzOff (.obj kvs) = pyInt w) ∧
    (∀ tzOff : Int, ∀ kvs, kvs ≠ [] → List.lookup ("timestampMs") kvs = none →
      _parse_timestamp tzOff (.obj kvs) =
        (match List.lookup ("timestamp") kvs with
         | some w => _parse_timestamp tzOff w
         | none => none)) ∧
    (∀ tzOff : Int, _parse_timestamp tzOff .null = none) ∧
    _parse_timestamp 0 (.num 1700000000000) = some 1700000000000 ∧
    _parse_timestamp 0 (.str "1700000000000") = some 1700000000000 ∧
    _parse_timestamp 0 (.str "2023-11-14T22:13:20Z") = some 1700000000000 ∧
    _parse_timestamp 0 .null = none ∧
    _parse_timestamp 0 (.obj [("timestampMs", .str "5")]) = some 5 := by
  refine ⟨?_, fun tzOff => rfl, ?_, ?_, ?_, ?_, fun tzOff => rfl,
    by decide, by decide, by decide, rfl, by decide⟩
  · intro tzOff q hq
    have hq2 : (q == 0) = false := by simpa using hq
    simp [_parse_timestamp, hq2]
  · intro tzOff s hs hd
    have hs2 : (s == "") = false := by simpa using hs
    simp [_parse_timestamp, hs2, hd]
  · intro tzOff s hs hd
    have hs2 : (s == "") = false := by simpa using hs
    simp [_parse_timestamp, hs2, hd]
  · intro tzOff kvs w hne hms
    have hemp : kvs.isEmpty = false := by
      cases kvs with
      | nil => exact absurd rfl hne
      | cons a l => rfl
    simp [_parse_timestamp, hemp, hms]
  · intro tzOff kvs hne hms
    have hemp : kvs.isEmpty = false := by
      cases kvs with
      | nil => exact absurd rfl hne
      | cons a l => rfl
    simp [_parse_timestamp, hemp, hms, tsRecurse_eq_lookup]

/-- Witness for C3 as amended, at concrete inputs for each hypothesis-bearing
branch: a nonzero number, a digit string, a non-digit string, a dict with
`timestampMs`, and a dict that falls back to `timestamp`. -/
theorem c3_amended_witness :
    _parse_timestamp 0 (.num 5) = some 5 ∧
    _parse_timestamp 0 (.str "42") = some 42 ∧
    _parse_timestamp 0 (.str "x") = isoToEpochMs 0 (replaceZ ("x").toList) ∧
    _parse_timestamp 0 (.obj [("timestampMs", .num 7)]) = pyInt (.num 7) ∧
    _parse_timestamp 0 (.obj [("timestamp", .num 9)]) =
      (match List.lookup ("timestamp") [(("timestamp" : String), JVal.num 9)] with
       | some w => _parse_timestamp 0 w
       | none => none) :=
  ⟨by
      have h := (c3_amended).1 0 5 (by decide)
      simpa using h,
    by
      have h := (c3_amended).2.2.1 0 ("42") (by decide) (by decide)
      simpa using h,
    (c3_amended).2.2.2.1 0 ("x") (by decide) (by decide),
    (c3_amended).2.2.2.2.1 0 [(("timestampMs" : String), JVal.num 7)] (.num 7) (by simp) rfl,
    (c3_amended).2.2.2.2.2.1 0 [(("timestamp" : String), JVal.num 9)] (by simp) rfl⟩

/-- A timeline path point with coordinates but no timestamp of its own. -/
def c4PathPoint : JVal := .obj [("point", .str "1.0, 2.0")]

/-- A three-point semantic segment whose parsed bounds are 0 and 100 — the
claim's own example: start = 0, end = 100. -/
def c4SegZero : JVal :=
  .obj [("timelinePath", .arr [c4PathPoint, c4PathPoint, c4PathPoint]),
    ("startTime", .str "0"), ("endTime", .str "100")]

/-- A three-point semantic segment with truthy bounds 1000 and 1100. -/
def c4SegGood : JVal :=
  .obj [("timelinePath", .arr [c4PathPoint, c4PathPoint, c4PathPoint]),
    ("startTime", .str "1000"), ("endTime", .str "1100")]

/-- An E7-scaled raw path point of the timeline objects format. -/
def c4RawPoint : JVal := .obj [("latE7", .num 10000000), ("lngE7", .num 20000000)]

/-- A timeline object whose activity segment carries only a three-point
simplified raw path, with duration bounds 1000 and 1100. -/
def c4TlObj : JVal :=
  .obj [("activitySegment", .obj [
    ("duration", .obj [("startTimestamp", .str "1000"), ("endTimestamp", .str "1100")]),
    ("simplifiedRawPath", .obj [("points", .arr [c4RawPoint, c4RawPoint, c4RawPoint])])])]

/-- Counterexample for claim C4 as stated: on the claim's own example — a
three-point path in a segment with known start = 0 and end = 100 and the
interpolation option enabled — the code leaves every timestamp unknown,
because the guard `start_time and end_time` treats the epoch value 0 as falsy;
the claimed timestamps 0, 50, 100 are not produced. -/
theorem c4_counterexample :
    (processSegment 0 cfgAll c4SegZero).pts.map Point.timestamp = [none, none, none] ∧
    (processSegment 0 cfgAll c4SegZero).pts.map Point.timestamp ≠
      [some 0, some 50, some 100] := by
  refine ⟨rfl, by decide⟩

/-- Claim C4 as amended: a path point lacking a truthy timestamp of its own is
interpolated to `start + (end - start) * (i / max(n - 1, 1))` truncated toward
zero (`int()`, not rounding to nearest), and only when the option is enabled
and both bounds are known and nonzero — an unknown or zero bound, or the
option disabled, leaves the timestamp unknown. For bounds 1000 and 1100 a
three-point path gets 1000, 1050, 1100, in both path-bearing formats. -/
theorem c4_amended :
    (∀ (cfg : Config) (s e own : Option Int) (i n : Nat),
      optTruthy own = false → cfg.INTERPOLATE_MISSING_TIMESTAMPS = true →
      optTruthy s = true → optTruthy e = true →
      choosePointTime cfg s e own i n = some (interpTime (s.getD 0) (e.getD 0) i n)) ∧
    (∀ (cfg : Config) (s e own : Option Int) (i n : Nat),
      cfg.INTERPOLATE_MISSING_TIMESTAMPS = false ∨ optTruthy s = false ∨ optTruthy e = false →
      choosePointTime cfg s e own i n = own) ∧
    (∀ (s e : Int) (i n : Nat),
      interpTime s e i n =
        pyIntTrunc ((s : ℚ) + ((e : ℚ) - (s : ℚ)) * ((i : ℚ) / ((max (n - 1) 1 : ℕ) : ℚ)))) ∧
    interpTime 0 5 1 3 = 2 ∧
    (processSegment 0 cfgAll c4SegGood).pts.map Point.timestamp =
      [some 1000, some 1050, some 1100] ∧
    (processTimelineObj 0 cfgAll c4TlObj).pts.map Point.timestamp =
      [some 1000, some 1050, some 1100] ∧
    (processSegment 0 ⟨true, true, true, false⟩ c4SegGood).pts.map Point.timestamp =
      [none, none, none] := by
  refine ⟨?_, ?_, ?_, by decide, rfl, rfl, rfl⟩
  · intro cfg s e own i n h1 h2 h3 h4
    simp [choosePointTime, h1, h2, h3, h4]
  · intro cfg s e own i n h
    rcases h with h | h | h <;> simp [choosePointTime, h]
  · intro s e i n
    simp only [interpTime, ratAdd_eq, ratMul_eq, ratSub_eq, ratDiv_eq, intToRat_eq, natToRat_eq]

/-- Witness for C4 as amended: the interpolation rule and the suppression rule
applied at concrete inputs. -/
theorem c4_amended_witness :
    choosePointTime cfgAll (some 10) (some 20) none 1 3 = some (interpTime 10 20 1 3) ∧
    choosePointTime ⟨true, true, true, false⟩ (some 10) (some 20) none 1 3 = none :=
  ⟨by
      have h := (c4_amended).1 cfgAll (some 10) (some 20) none 1 3 rfl rfl rfl rfl
      simpa using h,
    by
      have h := (c4_amended).2.1 ⟨true, true, true, false⟩ (some 10) (some 20) none 1 3
        (Or.inl rfl)
      simpa using h⟩

/-- The claim's LocationsWrapped element: E7 pair 351000000 / -472000000 with
millisecond timestamp string. -/
def locRecA : JVal :=
  .obj [("latitudeE7", .num 351000000), ("longitudeE7", .num (-472000000)),
    ("timestampMs", .str "1700000000000")]

/-- The canonical point the claim expects from `locRecA`: (35.1, -47.2) at
1700000000000, path source, generic label. -/
def pointA : Point :=
  ⟨mkRat 351 10, mkRat (-472) 10, some 1700000000000, .null, .str ("Location"), 0, .path⟩

/-- A LocationsWrapped file containing exactly `locRecA`, with a healthy
stream. -/
def fileA : ModelFile :=
  { text := "\x7b\"locations\": [\x7b\"latitudeE7\": 351000000\x7d]\x7d"
    locationsItems := ([locRecA], false)
    semanticItems := ([], false)
    timelineItems := ([], false)
    rootItems := ([], false) }

/-- Claim C10: the LocationsWrapped extractor reads none of the options — for
any two option values the pipeline output on a locations-classified file is
identical — and its path-tagged point is emitted even with `includeRawPath`
and `interpolateMissingTimestamps` both off. -/
theorem c10_locations_noninterference :
    (∀ (tzOff : Int) (f : ModelFile) (cfg1 cfg2 : Config),
      detect_format f.text = some DetectedFormat.locations →
      extract_locations tzOff cfg1 (some f) = extract_locations tzOff cfg2 (some f)) ∧
    extract_locations 0 ⟨true, true, false, false⟩ (some fileA) = some [pointA] ∧
    pointA.source = Source.path := by
  refine ⟨?_, rfl, rfl⟩
  intro tzOff f cfg1 cfg2 h
  simp only [extract_locations]
  rw [h]

/-- Witness for C10: two maximally different option values give the same
output on a concrete locations file. -/
theorem c10_locations_noninterference_witness :
    extract_locations 0 cfgAll (some fileA) =
      extract_locations 0 ⟨false, false, false, false⟩ (some fileA) :=
  (c10_locations_noninterference).1 0 fileA cfgAll ⟨false, false, false, false⟩ rfl

/-- Claim C5: the pipeline returns either a non-empty point sequence or the
single "no data" signal `None`; it never returns an empty sequence, and the
sub-cases — file not found, unrecognized schema, structural truncation, fatal
record error (locations format), and zero points extracted — all produce the
same structurally indistinguishable `None`. -/
theorem c5_terminal_contract :
    (∀ (tzOff : Int) (cfg : Config) (file : Option ModelFile),
      extract_locations tzOff cfg file = none ∨
      ∃ pts, extract_locations tzOff cfg file = some pts ∧ pts ≠ []) ∧
    (∀ (tzOff : Int) (cfg : Config), extract_locations tzOff cfg none = none) ∧
    (∀ (tzOff : Int) (cfg : Config) (f : ModelFile), detect_format f.text = none →
      extract_locations tzOff cfg (some f) = none) ∧
    (∀ (tzOff : Int) (cfg : Config) (f : ModelFile),
      detect_format f.text = some DetectedFormat.locations → f.locationsItems.2 = true →
      extract_locations tzOff cfg (some f) = none) ∧
    (∀ (tzOff : Int) (cfg : Config) (f : ModelFile),
      detect_format f.text = some DetectedFormat.locations →
      locPoints tzOff f.locationsItems.1 = .error .other →
      extract_locations tzOff cfg (some f) = none) ∧
    (∀ (tzOff : Int) (cfg : Config) (f : ModelFile),
      detect_format f.text = some DetectedFormat.locations →
      locPoints tzOff f.locationsItems.1 = .ok [] → f.locationsItems.2 = false →
      extract_locations tzOff cfg (some f) = none) := by
  refine ⟨?_, fun tzOff cfg => rfl, ?_, ?_, ?_, ?_⟩
  · intro tzOff cfg file
    cases file with
    | none => exact Or.inl rfl
    | some f =>
      simp only [extract_locations]
      split
      · exact Or.inl rfl
      · split
        · exact Or.inl rfl
        · exact Or.inl rfl
        · rename_i pts heq
          by_cases hp : pts.isEmpty = true
          · rw [if_pos hp]
            exact Or.inl rfl
          · rw [if_neg hp]
            refine Or.inr ⟨pts, rfl, fun hnil => ?_⟩
            subst hnil
            exact hp rfl
  · intro tzOff cfg f h
    simp only [extract_locations]
    rw [h]
  · intro tzOff cfg f h1 h2
    simp only [extract_locations, _process_locations_format]
    rw [h1, h2]
    cases hl : locPoints tzOff f.locationsItems.1 with
    | error e => cases e <;> rfl
    | ok pts => rfl
  · intro tzOff cfg f h1 h2
    simp only [extract_locations, _process_locations_format]
    rw [h1, h2]
  · intro tzOff cfg f h1 h2 h3
    simp only [extract_locations, _process_locations_format]
    rw [h1, h2, h3]
    rfl

/-- An unrecognizable input file: plain text, no JSON bracket. -/
def c5FileUnrec : ModelFile :=
  { text := "plain text"
    locationsItems := ([], false)
    semanticItems := ([], false)
    timelineItems := ([], false)
    rootItems := ([], false) }

/-- A locations file whose stream faults immediately. -/
def c5FileTrunc : ModelFile :=
  { text := "\x7b\"locations\": ["
    locationsItems := ([], true)
    semanticItems := ([], false)
    timelineItems := ([], false)
    rootItems := ([], false) }

/-- A locations file with a healthy but empty stream. -/
def c5FileEmpty : ModelFile :=
  { text := "\x7b\"locations\": []\x7d"
    locationsItems := ([], false)
    semanticItems := ([], false)
    timelineItems := ([], false)
    rootItems := ([], false) }

/-- Witness for C5: the hypothesis-bearing sub-cases at concrete files — an
unrecognized text, a truncated locations stream, and an empty extraction —
all return the "no data" signal. -/
theorem c5_terminal_contract_witness :
    extract_locations 0 cfgAll (some c5FileUnrec) = none ∧
    extract_locations 0 cfgAll (some c5FileTrunc) = none ∧
    extract_locations 0 cfgAll (some c5FileEmpty) = none :=
  ⟨(c5_terminal_contract).2.2.1 0 cfgAll c5FileUnrec rfl,
    (c5_terminal_contract).2.2.2.1 0 cfgAll c5FileTrunc rfl rfl,
    (c5_terminal_contract).2.2.2.2.2 0 cfgAll c5FileEmpty rfl rfl rfl⟩

/-- A locations file whose stream yields one good record and then faults
(truncated input). -/
def c1File : ModelFile :=
  { text := "\x7b\"locations\": ["
    locationsItems := ([locRecA], true)
    semanticItems := ([], false)
    timelineItems := ([], false)
    rootItems := ([], false) }

/-- Claim C1 describes the intended behavior (and the code's own diagnostic
says "Proceeding with the data read so far"), but the code loses the partial
results: the point extracted before the structural fault exists — the loop
alone yields it — yet `IncompleteJSONError` propagates out of the processing
call before the assignment to `points` completes, so the pipeline ends with
the initial empty list and returns `None` instead of the gathered points. -/
theorem c1_truncation_loses_partial_points :
    locPoints 0 [locRecA] = .ok [pointA] ∧
    _process_locations_format 0 ([locRecA], true) = .error .incompleteJSON ∧
    extract_locations 0 cfgAll (some c1File) = none ∧
    extract_locations 0 cfgAll (some c1File) ≠ some [pointA] := by
  refine ⟨rfl, rfl, rfl, ?_⟩
  intro h
  rw [show extract_locations 0 cfgAll (some c1File) = none from rfl] at h
  exact Option.noConfusion h

/-- A malformed locations record: its `latitudeE7` is a string, so
`loc['latitudeE7'] * 1e-7` raises `TypeError`. -/
def c2BadRec : JVal := .obj [("latitudeE7", .str "x"), ("longitudeE7", .num 1)]

/-- A locations file whose stream yields the malformed record and then a valid
one. -/
def c2File : ModelFile :=
  { text := "\x7b\"locations\": [\x7b\x7d]\x7d"
    locationsItems := ([c2BadRec, locRecA], false)
    semanticItems := ([], false)
    timelineItems := ([], false)
    rootItems := ([], false) }

/-- Counterexample for claim C2 as stated: in the locations variant a single
malformed record aborts the whole extraction. The valid record alone produces
a point, but with the malformed record ahead of it the processor raises and
the pipeline returns no data at all, instead of skipping the bad record and
continuing. -/
theorem c2_counterexample :
    processLocRecord 0 locRecA = .ok [pointA] ∧
    _process_locations_format 0 ([c2BadRec, locRecA], false) = .error .other ∧
    (∀ pts, _process_locations_format 0 ([c2BadRec, locRecA], false) ≠ .ok pts) ∧
    extract_locations 0 cfgAll (some c2File) = none := by
  refine ⟨rfl, rfl, ?_, rfl⟩
  intro pts h
  rw [show _process_locations_format 0 ([c2BadRec, locRecA], false) = .error .other from rfl]
    at h
  exact Except.noConfusion h

/-- A root-array record whose processing raises: the membership test
`'visit' in record` on a number is a `TypeError`. -/
def c2MalformedRoot : JVal := .num 5

/-- A valid root-array visit record. -/
def c2VisitRec : JVal :=
  .obj [("visit", .obj [
    ("topCandidate", .obj [("placeLocation", .str "geo:1.5,2.5"), ("placeID", .str "pid1"),
      ("semanticType", .str "Home"), ("probability", .num (mkRat 9 10))]),
    ("startTime", .str "1700000000000")])]

/-- The canonical point `c2VisitRec` produces. -/
def c2VisitPoint : Point :=
  ⟨mkRat 3 2, mkRat 5 2, some 1700000000000, .str ("pid1"), .str ("Home"), mkRat 9 10, .visit⟩

/-- Claim C2 as amended: in the root-array, semanticSegments and
timelineObjects variants every per-element exception is caught — those
processors can only fail with the structural-fault error, and a raising
element leaves the points it appended and iteration continues with the next
element; the spec's scenario B holds in the root-array variant. The locations
variant (see the counterexample) has no per-record handler and is exempt. -/
theorem c2_amended :
    (∀ (tzOff : Int) (cfg : Config) (stream : List JVal × Bool) (e : PyErr),
      _process_root_array_format tzOff cfg stream = .error e → e = .incompleteJSON) ∧
    (∀ (tzOff : Int) (cfg : Config) (stream : List JVal × Bool) (e : PyErr),
      _process_semantic_segments_format tzOff cfg stream = .error e → e = .incompleteJSON) ∧
    (∀ (tzOff : Int) (cfg : Config) (stream : List JVal × Bool) (e : PyErr),
      _process_timeline_objects_format tzOff cfg stream = .error e → e = .incompleteJSON) ∧
    (∀ (tzOff : Int) (cfg : Config) (r : JVal) (rest : List JVal),
      rootPoints tzOff cfg (r :: rest) =
        (processRootRecord tzOff cfg r).pts ++ rootPoints tzOff cfg rest) ∧
    (∀ (tzOff : Int) (cfg : Config) (s : JVal) (rest : List JVal),
      semanticPoints tzOff cfg (s :: rest) =
        (processSegment tzOff cfg s).pts ++ semanticPoints tzOff cfg rest) ∧
    (∀ (tzOff : Int) (cfg : Config) (t : JVal) (rest : List JVal),
      timelinePoints tzOff cfg (t :: rest) =
        (processTimelineObj tzOff cfg t).pts ++ timelinePoints tzOff cfg rest) ∧
    (processRootRecord 0 cfgAll c2MalformedRoot).isRaised = true ∧
    (processRootRecord 0 cfgAll c2MalformedRoot).pts = [] ∧
    rootPoints 0 cfgAll [c2MalformedRoot, c2VisitRec] = [c2VisitPoint] ∧
    _process_root_array_format 0 cfgAll ([c2MalformedRoot, c2VisitRec], false) =
      .ok [c2VisitPoint] := by
  refine ⟨?_, ?_, ?_, fun tzOff cfg r rest => rfl, fun tzOff cfg s rest => rfl,
    fun tzOff cfg t rest => rfl, rfl, rfl, rfl, rfl⟩
  · intro tzOff cfg stream e h
    unfold _process_root_array_format at h
    split at h
    · injection h with h2
      exact h2.symm
    · exact Except.noConfusion h
  · intro tzOff cfg stream e h
    unfold _process_semantic_segments_format at h
    split at h
    · injection h with h2
      exact h2.symm
    · exact Except.noConfusion h
  · intro tzOff cfg stream e h
    unfold _process_timeline_objects_format at h
    split at h
    · injection h with h2
      exact h2.symm
    · exact Except.noConfusion h

/-- Witness for C2 as amended: the only error the isolating processors ever
produce is the structural fault, applied at a concrete faulting stream. -/
theorem c2_amended_witness :
    PyErr.incompleteJSON = PyErr.incompleteJSON ∧
    _process_root_array_format 0 cfgAll ([c2MalformedRoot], true) = .error .incompleteJSON :=
  ⟨(c2_amended).1 0 cfgAll ([c2MalformedRoot], true) PyErr.incompleteJSON rfl, rfl⟩

theorem pyMulE7_num (q : ℚ) : pyMulE7 (.num q) = .ok (q / 10000000) := by
  simp only [pyMulE7]
  congr 1
  rw [Rat.mkRat_eq_div]
  push_cast
  rw [div_eq_div_iff (mul_ne_zero (den_cast_nz q) (by norm_num)) (by norm_num),
    num_cast_eq]
  ring

theorem processLocRecord_sources (tzOff : Int) (loc : JVal) (r : List Point)
    (h : processLocRecord tzOff loc = .ok r) :
    ∀ p ∈ r, p.source = Source.path ∧ p.semanticType = .str ("Location") := by
  intro p hp
  unfold processLocRecord at h
  repeat' split at h
  all_goals (try exact RecResult.noConfusion h)
  all_goals (injection h with h2; subst h2; simp at hp)
  all_goals (subst hp; exact ⟨rfl, rfl⟩)

theorem locPoints_sources (tzOff : Int) (items : List JVal) (pts : List Point)
    (h : locPoints tzOff items = .ok pts) :
    ∀ p ∈ pts, p.source = Source.path ∧ p.semanticType = .str ("Location") := by
  induction items generalizing pts with
  | nil =>
    intro p hp
    unfold locPoints at h
    injection h with h2
    subst h2
    simp at hp
  | cons l rest ih =>
    intro p hp
    unfold locPoints at h
    split at h
    · exact Except.noConfusion h
    · rename_i ps hrec
      split at h
      · exact Except.noConfusion h
      · rename_i tail htail
        injection h with h2
        subst h2
        rcases List.mem_append.mp hp with hp1 | hp2
        · exact processLocRecord_sources tzOff l ps hrec p hp1
        · exact ih tail htail p hp2

/-- Claim C8: the LocationsWrapped document containing the single element
`{latitudeE7: 351000000, longitudeE7: -472000000, timestampMs: "1700000000000"}`
yields exactly one canonical point (35.1, -47.2) — the E7 integers scaled by
1e-7, exact in the rational model — at timestamp 1700000000000 with source
`path`; and generally every locations element with numeric E7 fields yields
its E7 values divided by 1e7, and every point of this variant is tagged
`path` with the generic `Location` label. -/
theorem c8_locations_scenario :
    (∀ (tzOff : Int) (cfg : Config), extract_locations tzOff cfg (some fileA) = some [pointA]) ∧
    pointA.lat = (351000000 : ℚ) / 10000000 ∧
    pointA.lon = (-472000000 : ℚ) / 10000000 ∧
    pointA.timestamp = some 1700000000000 ∧
    pointA.source = Source.path ∧
    (∀ (tzOff : Int) (kvs : List (String × JVal)) (a b : ℚ),
      List.lookup ("latitudeE7") kvs = some (.num a) →
      List.lookup ("longitudeE7") kvs = some (.num b) →
      processLocRecord tzOff (.obj kvs) =
        .ok [⟨a / 10000000, b / 10000000,
          _parse_timestamp tzOff
            (pyOr ((List.lookup ("timestampMs") kvs).getD .null)
              ((List.lookup ("timestamp") kvs).getD .null)),
          .null, .str ("Location"), 0, .path⟩]) ∧
    (∀ (tzOff : Int) (items : List JVal) (pts : List Point),
      locPoints tzOff items = .ok pts →
      ∀ p ∈ pts, p.source = Source.path ∧ p.semanticType = .str ("Location")) := by
  refine ⟨fun tzOff cfg => rfl, ?_, ?_, rfl, rfl, ?_, locPoints_sources⟩
  · rw [show pointA.lat = mkRat 351 10 from rfl, Rat.mkRat_eq_div]
    norm_num
  · rw [show pointA.lon = mkRat (-472) 10 from rfl, Rat.mkRat_eq_div]
    push_cast
    norm_num
  · intro tzOff kvs a b h1 h2
    have hin1 : pyIn ("latitudeE7") (.obj kvs) = .ok true := by
      simp [pyIn, h1]
    have hin2 : pyIn ("longitudeE7") (.obj kvs) = .ok true := by
      simp [pyIn, h2]
    have hix1 : pyIndex (.obj kvs) ("latitudeE7") = .ok (.num a) := by
      simp [pyIndex, h1]
    have hix2 : pyIndex (.obj kvs) ("longitudeE7") = .ok (.num b) := by
      simp [pyIndex, h2]
    simp only [processLocRecord, hin1, hin2, hix1, hix2, pyMulE7_num, pyGet]
    split
    · rename_i u heq
      split at heq <;> exact Except.noConfusion heq
    · rename_i tv heq
      split at heq
      · rename_i htr
        injection heq with h3
        subst h3
        simp [pyOr, htr]
      · rename_i htr
        injection heq with h3
        subst h3
        simp [pyOr, htr]

/-- The element the C8 witness instantiates the general rule at. -/
def c8Wkvs : List (String × JVal) :=
  [(("latitudeE7" : String), JVal.num 20000000), (("longitudeE7" : String), JVal.num 30000000)]

/-- Witness for C8: the general E7 rule applied at a concrete element. -/
theorem c8_locations_scenario_witness :
    processLocRecord 0 (.obj c8Wkvs) =
      .ok [⟨(20000000 : ℚ) / 10000000, (30000000 : ℚ) / 10000000,
        _parse_timestamp 0
          (pyOr ((List.lookup ("timestampMs") c8Wkvs).getD .null)
            ((List.lookup ("timestamp") c8Wkvs).getD .null)),
        .null, .str ("Location"), 0, .path⟩] :=
  (c8_locations_scenario).2.2.2.2.2.1 0 c8Wkvs 20000000 30000000 rfl rfl

theorem RecResult.pts_cons (q : Point) (r : RecResult) :
    (RecResult.cons q r).pts = q :: r.pts := by
  cases r <;> rfl

theorem RecResult.mem_seq (p : Point) (a b : RecResult) (h : p ∈ (RecResult.seq a b).pts) :
    p ∈ a.pts ∨ p ∈ b.pts := by
  cases a <;> cases b <;> simp_all [RecResult.seq, RecResult.pts]

theorem pathLoop_sources (tzOff : Int) (cfg : Config) (s e : Option Int) (n : Nat) :
    ∀ (idx : Nat) (items : List JVal) (p : Point),
      p ∈ (pathLoop tzOff cfg s e n idx items).pts → p.source = Source.path := by
  intro idx items
  induction items generalizing idx with
  | nil =>
    intro p hp
    simp [pathLoop, RecResult.pts] at hp
  | cons pp rest ih =>
    intro p hp
    unfold pathLoop at hp
    repeat' split at hp
    all_goals (try (exact ih (idx + 1) p hp))
    all_goals (try (simp only [RecResult.pts] at hp; exact absurd hp (List.not_mem_nil p)))
    rw [RecResult.pts_cons] at hp
    rcases List.mem_cons.mp hp with h1 | h2
    · subst h1
      rfl
    · exact ih (idx + 1) p h2

theorem segPathBranch_sources (tzOff : Int) (cfg : Config) (seg : JVal) :
    ∀ p ∈ (segPathBranch tzOff cfg seg).pts, p.source = Source.path := by
  intro p hp
  unfold segPathBranch at hp
  repeat' split at hp
  all_goals (try (simp [RecResult.pts] at hp))
  exact pathLoop_sources tzOff cfg _ _ _ 0 _ p hp

theorem segVisitBranch_sources (tzOff : Int) (seg : JVal) :
    ∀ p ∈ (segVisitBranch tzOff seg).pts, p.source = Source.visit := by
  intro p hp
  unfold segVisitBranch at hp
  repeat' split at hp
  all_goals (try (simp only [RecResult.pts] at hp; exact absurd hp (List.not_mem_nil p)))
  all_goals (simp only [RecResult.pts, List.mem_singleton] at hp; subst hp; rfl)

theorem semActEndpoint_sources (tzOff : Int) (seg act : JVal)
    (endKey timeKey segKey : String) (label : JVal) :
    ∀ p ∈ (semActEndpoint tzOff seg act endKey timeKey segKey label).pts,
      p.source = Source.activity := by
  intro p hp
  unfold semActEndpoint at hp
  repeat' split at hp
  all_goals (try (simp only [RecResult.pts] at hp; exact absurd hp (List.not_mem_nil p)))
  all_goals (simp only [RecResult.pts, List.mem_singleton] at hp; subst hp; rfl)

theorem segActivityBranch_sources (tzOff : Int) (seg : JVal) :
    ∀ p ∈ (segActivityBranch tzOff seg).pts, p.source = Source.activity := by
  intro p hp
  unfold segActivityBranch at hp
  repeat' split at hp
  all_goals (try (simp only [RecResult.pts] at hp; exact absurd hp (List.not_mem_nil p)))
  rcases RecResult.mem_seq p _ _ hp with h1 | h2
  · exact semActEndpoint_sources tzOff _ _ _ _ _ _ p h1
  · exact semActEndpoint_sources tzOff _ _ _ _ _ _ p h2

theorem processSegmentAfterPath_sources (tzOff : Int) (cfg : Config) (seg : JVal) :
    (∀ p ∈ (processSegmentAfterPath tzOff cfg seg).pts, p.source = Source.visit) ∨
    (∀ p ∈ (processSegmentAfterPath tzOff cfg seg).pts, p.source = Source.activity) := by
  unfold processSegmentAfterPath
  repeat' split
  all_goals (first
    | exact Or.inl (fun p hp => by
        simp only [RecResult.pts] at hp
        exact absurd hp (List.not_mem_nil p))
    | exact Or.inl (segVisitBranch_sources tzOff seg)
    | exact Or.inr (segActivityBranch_sources tzOff seg))

theorem processSegment_sources (tzOff : Int) (cfg : Config) (seg : JVal) :
    (∀ p ∈ (processSegment tzOff cfg seg).pts, p.source = Source.path) ∨
    (∀ p ∈ (processSegment tzOff cfg seg).pts, p.source = Source.visit) ∨
    (∀ p ∈ (processSegment tzOff cfg seg).pts, p.source = Source.activity) := by
  unfold processSegment
  repeat' split
  all_goals (first
    | exact Or.inl (fun p hp => by
        simp only [RecResult.pts] at hp
        exact absurd hp (List.not_mem_nil p))
    | exact Or.inl (segPathBranch_sources tzOff cfg seg)
    | exact Or.inr (processSegmentAfterPath_sources tzOff cfg seg))

/-- The options with raw-path inclusion disabled (and the rest enabled). -/
def cfgNoRaw : Config := ⟨true, true, false, true⟩

/-- A semantic segment containing only a timeline path. -/
def c9SegTPonly : JVal := .obj [("timelinePath", .arr [c4PathPoint])]

/-- A semantic segment containing a valid visit. -/
def c9VisitSeg : JVal :=
  .obj [("visit", .obj [
    ("topCandidate", .obj [("placeLocation", .obj [("latLng", .str "geo:1.5,2.5")]),
      ("placeID", .str "pid2"), ("semanticType", .str "Work"),
      ("probability", .num (mkRat 1 2))]),
    ("startTime", .str "1700000000000")])]

/-- The canonical point `c9VisitSeg` produces. -/
def c9VisitPoint : Point :=
  ⟨mkRat 3 2, mkRat 5 2, some 1700000000000, .str ("pid2"), .str ("Work"), mkRat 1 2, .visit⟩

/-- Claim C9: a semantic segment is processed by at most one of its three
content kinds (every point it emits carries one single source tag), with
precedence timelinePath (only when raw-path inclusion is on) before visit
before activity; with `includeRawPath = false` a timeline-path-only segment
contributes zero points and extraction still processes the following
segments. -/
theorem c9_segment_precedence :
    (∀ (tzOff : Int) (cfg : Config) (seg : JVal),
      (∀ p ∈ (processSegment tzOff cfg seg).pts, p.source = Source.path) ∨
      (∀ p ∈ (processSegment tzOff cfg seg).pts, p.source = Source.visit) ∨
      (∀ p ∈ (processSegment tzOff cfg seg).pts, p.source = Source.activity)) ∧
    (∀ (tzOff : Int) (cfg : Config) (kvs : List (String × JVal)),
      cfg.INCLUDE_RAW_PATH = true → (List.lookup ("timelinePath") kvs).isSome = true →
      processSegment tzOff cfg (.obj kvs) = segPathBranch tzOff cfg (.obj kvs)) ∧
    (∀ (tzOff : Int) (cfg : Config) (kvs : List (String × JVal)),
      cfg.INCLUDE_RAW_PATH = false → cfg.INCLUDE_VISITS = true →
      (List.lookup ("visit") kvs).isSome = true →
      processSegment tzOff cfg (.obj kvs) = segVisitBranch tzOff (.obj kvs)) ∧
    (∀ (tzOff : Int) (cfg : Config) (kvs : List (String × JVal)),
      cfg.INCLUDE_RAW_PATH = true → List.lookup ("timelinePath") kvs = none →
      cfg.INCLUDE_VISITS = true → (List.lookup ("visit") kvs).isSome = true →
      processSegment tzOff cfg (.obj kvs) = segVisitBranch tzOff (.obj kvs)) ∧
    (processSegment 0 cfgNoRaw c9SegTPonly).pts = [] ∧
    semanticPoints 0 cfgNoRaw [c9SegTPonly, c9VisitSeg] = [c9VisitPoint] ∧
    _process_semantic_segments_format 0 cfgNoRaw ([c9SegTPonly, c9VisitSeg], false) =
      .ok [c9VisitPoint] := by
  refine ⟨processSegment_sources, ?_, ?_, ?_, rfl, rfl, rfl⟩
  · intro tzOff cfg kvs h1 h2
    have hin : pyIn ("timelinePath") (.obj kvs) = .ok true := by
      simp [pyIn, h2]
    simp [processSegment, h1, hin]
  · intro tzOff cfg kvs h1 h2 h3
    have hin : pyIn ("visit") (.obj kvs) = .ok true := by
      simp [pyIn, h3]
    simp [processSegment, processSegmentAfterPath, h1, h2, hin]
  · intro tzOff cfg kvs h1 h2 h3 h4
    have hin1 : pyIn ("timelinePath") (.obj kvs) = .ok false := by
      simp [pyIn, h2]
    have hin2 : pyIn ("visit") (.obj kvs) = .ok true := by
      simp [pyIn, h4]
    simp [processSegment, processSegmentAfterPath, h1, h3, hin1, hin2]

/-- Witness for C9: the precedence rules applied at concrete segments. -/
theorem c9_segment_precedence_witness :
    processSegment 0 cfgAll c9SegTPonly = segPathBranch 0 cfgAll c9SegTPonly ∧
    processSegment 0 cfgNoRaw c9VisitSeg = segVisitBranch 0 c9VisitSeg :=
  ⟨(c9_segment_precedence).2.1 0 cfgAll [(("timelinePath" : String), JVal.arr [c4PathPoint])]
      rfl rfl,
    (c9_segment_precedence).2.2.1 0 cfgNoRaw
      [(("visit" : String), JVal.obj [
        ("topCandidate", .obj [("placeLocation", .obj [("latLng", .str "geo:1.5,2.5")]),
          ("placeID", .str "pid2"), ("semanticType", .str "Work"),
          ("probability", .num (mkRat 1 2))]),
        ("startTime", .str "1700000000000")])]
      rfl rfl rfl⟩
